import Mathlib

/-!
Verification of the RadiaCode KML/KMZ to Google-Maps converter
(`radiacode_to_gmap_converter.py`).

The Python program is shallowly embedded below.  Conventions of the
embedding:

* Python floats are modelled as exact rationals (`ℚ`).  All the concrete
  values the claims touch (decimal coordinate strings, decimal dose rates,
  multiples of 1/255 and 1/2) are exactly representable, and every theorem
  below only relies on the model at such points.
* Python exceptions are modelled with `Except String`; the error payload is a
  label naming which Python exception is raised at that program point (the
  exact Python message text is not reproduced).
* `pandas` column operations (`df[c].apply f`) are modelled by `exMap`, which
  applies `f` to every element and propagates the first raised exception.
  A parsed-out `None` in a float column becomes a NaN, which the
  normalization arithmetic and `min`/`max` propagate silently; the model
  represents such a NaN as `Option.none` flowing through `Option.map`.
* `re.search` with the fixed pattern of `parse_description` is embedded as a
  hand-compiled matcher with the exact semantics of the pattern
  `<b>(.*?)</b></br>([\d.]+) µSv/h</br>([\d.]+) cps</br>Accuracy: ±(\d+) m</br>`:
  leftmost match, lazy first group (any character except a newline), greedy
  character-class groups.  The character classes are modelled over ASCII
  digits.
-/

set_option maxRecDepth 4000

deriving instance DecidableEq for Except

namespace RadiaCode

/-! ## Python primitives -/

/-- Value of a list of ASCII decimal digit characters. -/
def digitsToNat (ds : List Char) : ℕ :=
  ds.foldl (fun n c => 10 * n + (c.toNat - 48)) 0

/-- Python `int(q)` on a float: truncation toward zero. -/
def pyIntTrunc (q : ℚ) : ℤ :=
  if q < 0 then -Int.floor (-q) else Int.floor q

/-- Python `round` on a float (also used by fixed-point formatting):
round half to even. -/
def rndHalfEven (q : ℚ) : ℤ :=
  let f := Int.floor q
  let r := q - (f : ℚ)
  if r < 1/2 then f
  else if 1/2 < r then f + 1
  else if f % 2 = 0 then f else f + 1

/-- Python `format(n, "x")` for a natural number: lowercase hexadecimal. -/
def pyHexNat (n : ℕ) : String :=
  String.mk (Nat.toDigits 16 n)

/-- Python `format(n, "02x")` for a natural number: lowercase hexadecimal,
zero-padded to width 2. -/
def pyHex02 (n : ℕ) : String :=
  if n < 16 then "0" ++ pyHexNat n else pyHexNat n

/-- Python `format(n, "02x")` for an integer. -/
def pyHex02Z (n : ℤ) : String :=
  if n < 0 then "-" ++ pyHexNat n.natAbs else pyHex02 n.toNat

/-- ASCII uppercasing of one character (Python `str.upper` restricted to the
ASCII range, which is all that hexadecimal strings contain). -/
def charUpper (c : Char) : Char :=
  if 97 ≤ c.toNat ∧ c.toNat ≤ 122 then Char.ofNat (c.toNat - 32) else c

/-- Python `str.upper()` over an ASCII string. -/
def asciiUpper (s : String) : String :=
  String.mk (s.data.map charUpper)

/-- Left-pad a string with zeros to width `k`. -/
def padLeftZeros (k : ℕ) (s : String) : String :=
  String.mk (List.replicate (k - s.length) '0') ++ s

/-- Python fixed-point float formatting `f"{q:.df}"` for `d` fractional
digits, modelled on the exact rational with round-half-even.  (Python rounds
the underlying binary double; the two agree away from decimal midpoints, and
no theorem below evaluates this model at a midpoint.) -/
def fmtFix (d : ℕ) (q : ℚ) : String :=
  let n := rndHalfEven (q * 10 ^ d)
  let m := n.natAbs
  (if n < 0 then "-" else "") ++ toString (m / 10 ^ d) ++ "." ++
    padLeftZeros d (toString (m % 10 ^ d))

/-- Python `str(x)` for `x` a string or `None` (as in
`placemark.set("id", str(row["id"]))`). -/
def pyStrOpt : Option String → String
  | some s => s
  | none => "None"

/-- Python `int(s)` on a string, modelled for an optional sign followed by
decimal digits (the only shapes reaching it here: `\d+` regex captures). -/
def pyIntOfString (s : String) : Except String ℤ :=
  let (neg, ds) :=
    match s.data with
    | '-' :: t => (true, t)
    | '+' :: t => (false, t)
    | t => (false, t)
  if ds ≠ [] ∧ ds.all Char.isDigit then
    let v : ℤ := Int.ofNat (digitsToNat ds)
    Except.ok (if neg then -v else v)
  else Except.error "ValueError: invalid literal for int"

/-- Python `float(s)` on a string, modelled for an optional sign followed by
decimal digits with at most one dot (the shapes reaching it here: `[\d.]+`
regex captures and comma-separated KML coordinate fields).  A string with two
dots, or with no digit, raises `ValueError`, as `float` does. -/
def pyFloatOfString (s : String) : Except String ℚ :=
  let (neg, ds) :=
    match s.data with
    | '-' :: t => (true, t)
    | '+' :: t => (false, t)
    | t => (false, t)
  if (ds.all fun c => c.isDigit || c == '.') ∧ ds.count '.' ≤ 1 ∧
      (ds.any Char.isDigit) then
    let ip := ds.takeWhile (fun c => c ≠ '.')
    let fp := (ds.dropWhile (fun c => c ≠ '.')).drop 1
    let v : ℚ := (digitsToNat ip : ℚ) + (digitsToNat fp : ℚ) / (10 : ℚ) ^ fp.length
    Except.ok (if neg then -v else v)
  else Except.error "ValueError: could not convert string to float"

/-- Multiplicity of `p` in `n`, with explicit fuel (`fuel = n` always
suffices since dividing by `p ≥ 2` at least halves `n`). -/
def multOfF (p : ℕ) : ℕ → ℕ → ℕ
  | 0, _ => 0
  | fuel + 1, n =>
    if 1 < p ∧ 1 < n ∧ n % p = 0 then multOfF p fuel (n / p) + 1 else 0

/-- Multiplicity of `p` in `n` (number of times `p` divides `n`). -/
def multOf (p : ℕ) (n : ℕ) : ℕ := multOfF p n n

/-- Python `str(x)` for a float `x`, modelled for rationals with a finite
decimal expansion (every value produced by `pyFloatOfString` is one): the
digits of the value, with at least one fractional digit, a leading `-` when
negative.  This agrees with CPython shortest round-trip repr on the decimal
coordinate strings the claims concern (magnitudes far below 1e16). -/
def pyReprFloat (q : ℚ) : String :=
  let d := q.den
  let a := multOf 2 d
  let b := multOf 5 d
  if 2 ^ a * 5 ^ b = d then
    let k := max 1 (max a b)
    let m := (q * (10 : ℚ) ^ k).num.natAbs
    (if q < 0 then "-" else "") ++ toString (m / 10 ^ k) ++ "." ++
      padLeftZeros k (toString (m % 10 ^ k))
  else "non-decimal rational"

/-- `pandas` `Series.apply` / row iteration: apply `f` to every element in
order, propagating the first raised exception. -/
def exMap {α β : Type} (f : α → Except String β) : List α → Except String (List β)
  | [] => Except.ok []
  | a :: as =>
    match f a with
    | Except.error e => Except.error e
    | Except.ok b =>
      match exMap f as with
      | Except.error e => Except.error e
      | Except.ok bs => Except.ok (b :: bs)

/-- Whether an `Except` computation finished without raising. -/
def isOkE {ε α : Type} : Except ε α → Bool
  | Except.ok _ => true
  | Except.error _ => false

/-! ## The description regex

Hand-compiled matcher for
`<b>(.*?)</b></br>([\d.]+) µSv/h</br>([\d.]+) cps</br>Accuracy: ±(\d+) m</br>`
under `re.search`.  After the lazy first group, the remaining pattern is
deterministic: each greedy class `[\d.]+` / `\d+` is followed by a literal
starting with a space, which is outside the class, so the maximal run is the
only viable capture. -/

/-- The four captured groups of the description pattern. -/
structure Caps where
  g1 : String
  g2 : String
  g3 : String
  g4 : String
deriving DecidableEq

/-- Characters matched by `[\d.]` (ASCII digits and the dot). -/
def isDigitDot (c : Char) : Bool := c.isDigit || c == '.'

/-- Literal pieces of the pattern. -/
def litOpen : List Char := "<b>".data

def litClose : List Char := "</b></br>".data

def litUsvh : List Char := " µSv/h</br>".data

def litCps : List Char := " cps</br>Accuracy: ±".data

def litMeters : List Char := " m</br>".data

/-- Match the deterministic tail of the pattern after the closing
`</b></br>`: `([\d.]+) µSv/h</br>([\d.]+) cps</br>Accuracy: ±(\d+) m</br>`. -/
def matchCont (g1rev : List Char) (s : List Char) : Option Caps :=
  let run2 := s.takeWhile isDigitDot
  if run2.isEmpty then none else
  let s2 := s.drop run2.length
  if litUsvh.isPrefixOf s2 then
    let s3 := s2.drop litUsvh.length
    let run3 := s3.takeWhile isDigitDot
    if run3.isEmpty then none else
    let s4 := s3.drop run3.length
    if litCps.isPrefixOf s4 then
      let s5 := s4.drop litCps.length
      let run4 := s5.takeWhile Char.isDigit
      if run4.isEmpty then none else
      let s6 := s5.drop run4.length
      if litMeters.isPrefixOf s6 then
        some ⟨String.mk g1rev.reverse, String.mk run2, String.mk run3,
          String.mk run4⟩
      else none
    else none
  else none

/-- Lazy expansion of `(.*?)</b></br>` followed by the deterministic tail:
try the closing literal at the current position first; on failure extend the
group by one non-newline character (`.` does not match a newline). -/
def matchTail (g1rev : List Char) : List Char → Option Caps
  | [] =>
    if litClose.isPrefixOf [] then matchCont g1rev (([] : List Char).drop litClose.length)
    else none
  | c :: s' =>
    match (if litClose.isPrefixOf (c :: s') then
             matchCont g1rev ((c :: s').drop litClose.length)
           else none) with
    | some caps => some caps
    | none => if c = '\n' then none else matchTail (c :: g1rev) s'

/-- Attempt a match anchored at the current position. -/
def matchAt (s : List Char) : Option Caps :=
  if litOpen.isPrefixOf s then matchTail [] (s.drop litOpen.length) else none

/-- `re.search`: leftmost successful match. -/
def searchFrom : List Char → Option Caps
  | [] => matchAt []
  | c :: s' =>
    match matchAt (c :: s') with
    | some caps => some caps
    | none => searchFrom s'

/-- Search the description pattern in a string. -/
def searchDesc (desc : String) : Option Caps :=
  searchFrom desc.data

/-! ## parse_description -/

/-- The four derived fields of a placemark record (`pd.Series` returned by
`parse_description`); `none` models Python `None` (and the NaN it becomes in
a float column). -/
structure Parsed where
  datetime? : Option String
  usvh? : Option ℚ
  cps? : Option ℚ
  accuracy? : Option String
deriving DecidableEq

/-- `parse_description`: on a pattern match, the timestamp capture, the two
`float(...)` conversions and the raw accuracy capture (kept as a string by
the source); on no match, all four fields `None`.  `float` on a capture such
as `1.2.3` raises, which propagates out of the `apply`. -/
def parse_description (desc : String) : Except String Parsed :=
  match searchDesc desc with
  | some caps =>
    match pyFloatOfString caps.g2 with
    | Except.error e => Except.error e
    | Except.ok u =>
      match pyFloatOfString caps.g3 with
      | Except.error e => Except.error e
      | Except.ok c =>
        Except.ok ⟨some caps.g1, some u, some c, some caps.g4⟩
  | none => Except.ok ⟨none, none, none, none⟩

/-! ## Data model -/

/-- An input `Placemark` element as the extractor sees it: the optional `id`
attribute, and the optional `styleUrl`, `Point/coordinates` and `description`
children (`none` models a missing child, whose attribute access raises
`AttributeError`; `pointCoordinates?` is `none` when `Point` or its
`coordinates` child is missing). -/
structure InPlacemark where
  id? : Option String
  styleUrl? : Option String
  pointCoordinates? : Option String
  description? : Option String
deriving DecidableEq

/-- One extracted placemark record (an entry of the `placemarks` list built
in `process_kml`). -/
structure PlacemarkRec where
  id? : Option String
  style_url : String
  coordinates : String
  description : String
deriving DecidableEq

/-- A fully processed dataframe row of `process_kml`: the extracted columns,
the parsed description columns, the normalized value and the color. -/
structure Row where
  id? : Option String
  style_url : String
  coordinates : String
  description : String
  datetime? : Option String
  usvh? : Option ℚ
  cps? : Option ℚ
  accuracy? : Option String
  usvh_normalized? : Option ℚ
  color : String
deriving DecidableEq

/-- An output `Placemark` as `create_kml_from_dataframe` builds it: the `id`
attribute (always set, to `str(row["id"])`), the icon color, the fixed scale
and icon URL, the four `ExtendedData` entries in document order as
(name, value) pairs, and the `Point/coordinates` text. -/
structure OutPlacemark where
  id : String
  color : String
  scale : String
  iconHref : String
  dataEntries : List (String × String)
  coordinates : String
deriving DecidableEq

/-! ## process_kml -/

/-- Extraction of one placemark (the dict literal in `process_kml`):
`placemark.get("id")` never raises; `placemark.styleUrl.text`,
`placemark.Point.coordinates.text` and `placemark.description.text` raise
`AttributeError` when the child element is missing. -/
def extractPlacemark (p : InPlacemark) : Except String PlacemarkRec :=
  match p.styleUrl? with
  | none => Except.error "AttributeError: no styleUrl child"
  | some su =>
    match p.pointCoordinates? with
    | none => Except.error "AttributeError: no Point.coordinates child"
    | some co =>
      match p.description? with
      | none => Except.error "AttributeError: no description child"
      | some de => Except.ok ⟨p.id?, su, co, de⟩

/-- The normalization lambda of `process_kml`:
`min(max((x - min_val) / (max_val - min_val), 0), 1)`. -/
def normalizeVal (x mn mx : ℚ) : ℚ :=
  min (max ((x - mn) / (mx - mn)) 0) 1

/-- Python `int(alpha * 255)` etc. formatted `02x` and uppercased: the body
of `get_color`, parametrized by the gradient function `cm` (the matplotlib
colormap, a map from [0,1] to RGB channel fractions; its fourth output
channel is discarded by the source, so `cm` returns only RGB here). -/
def get_color (cm : ℚ → ℚ × ℚ × ℚ) (value : ℚ) (alpha : ℚ) : String :=
  let rgb := cm value
  asciiUpper (pyHex02Z (pyIntTrunc (alpha * 255)) ++ pyHex02Z (pyIntTrunc (rgb.2.2 * 255))
    ++ pyHex02Z (pyIntTrunc (rgb.2.1 * 255)) ++ pyHex02Z (pyIntTrunc (rgb.1 * 255)))

/-- The color column: a parsed dose rate is normalized and colored; an
absent dose rate is a NaN, which the clamp propagates, and a matplotlib
colormap maps NaN to its bad color, RGBA `(0, 0, 0, 0)` by default, so the
row still gets a color string (the alpha argument is applied unchanged). -/
def colorForNorm (cm : ℚ → ℚ × ℚ × ℚ) (alpha : ℚ) : Option ℚ → String
  | some v => get_color cm v alpha
  | none => get_color (fun _ => (0, 0, 0)) 0 alpha

/-- Assemble the dataframe rows from the extracted records and the parsed
description columns (the column assignments of `process_kml`): the
normalized column is `Option.map` of the clamp (NaN propagation), the color
column always produces a string. -/
def buildRows (mn mx : ℚ) (cm : ℚ → ℚ × ℚ × ℚ) (alpha : ℚ) :
    List PlacemarkRec → List Parsed → List Row
  | r :: rs, pd :: ps =>
    let n? := pd.usvh?.map (fun x => normalizeVal x mn mx)
    { id? := r.id?, style_url := r.style_url, coordinates := r.coordinates,
      description := r.description, datetime? := pd.datetime?,
      usvh? := pd.usvh?, cps? := pd.cps?, accuracy? := pd.accuracy?,
      usvh_normalized? := n?, color := colorForNorm cm alpha n? } ::
      buildRows mn mx cm alpha rs ps
  | _, _ => []

/-- `process_kml` after reading the document: extract all placemarks, parse
every description, normalize and color every row.  Document-level
name/description metadata is passed through untouched by the source and is
not modelled. -/
def processPlacemarks (ps : List InPlacemark) (mn mx : ℚ)
    (cm : ℚ → ℚ × ℚ × ℚ) (alpha : ℚ) : Except String (List Row) :=
  match exMap extractPlacemark ps with
  | Except.error e => Except.error e
  | Except.ok recs =>
    match exMap (fun r => parse_description r.description) recs with
    | Except.error e => Except.error e
    | Except.ok parsed => Except.ok (buildRows mn mx cm alpha recs parsed)

/-! ## create_kml_from_dataframe -/

/-- The constant icon URL of the writer. -/
def iconUrl : String := "https://maps.google.com/mapfiles/kml/pal2/icon18.png"

/-- Build one output placemark from a row, in the evaluation order of the
source: the style (never raises), the four `ExtendedData` entries
(`KML.value(None)` raises `TypeError` for an absent timestamp; a NaN dose
rate or count rate formats as "nan"; `int(None)` raises `TypeError` for an
absent accuracy), then the coordinate split and the two `float(...)` calls
(`IndexError` on fewer than two fields, `ValueError` on a non-numeric
field), then the placemark with `id` set to `str(row["id"])`. -/
def writeRow (r : Row) : Except String OutPlacemark :=
  match r.datetime? with
  | none => Except.error "TypeError: KML.value of NoneType"
  | some t =>
    let uStr := match r.usvh? with
      | some u => fmtFix 2 u
      | none => "nan"
    let cStr := match r.cps? with
      | some c => fmtFix 1 c
      | none => "nan"
    match r.accuracy? with
    | none => Except.error "TypeError: int of NoneType"
    | some acc =>
      match pyIntOfString acc with
      | Except.error e => Except.error e
      | Except.ok n =>
        match r.coordinates.split (fun c => c = ',') with
        | f0 :: f1 :: _ =>
          match pyFloatOfString f0 with
          | Except.error e => Except.error e
          | Except.ok lon =>
            match pyFloatOfString f1 with
            | Except.error e => Except.error e
            | Except.ok lat =>
              Except.ok
                { id := pyStrOpt r.id?, color := r.color, scale := "0.8",
                  iconHref := iconUrl,
                  dataEntries := [("Time", t), ("µSv/h", uStr), ("cps", cStr),
                    ("Accuracy (m)", toString n)],
                  coordinates := pyReprFloat lon ++ "," ++ pyReprFloat lat ++ ",0" }
        | _ => Except.error "IndexError: coordinate list too short"

/-- The placemark loop of `create_kml_from_dataframe` (document-level
name/description defaulting wraps wall-clock time and is not modelled; no
claim concerns it). -/
def create_kml_from_dataframe (rows : List Row) : Except String (List OutPlacemark) :=
  exMap writeRow rows

/-- The whole pipeline of the `try` block in `main`: process the placemarks
of the parsed document, then build the output placemarks.  The output file
is written only when this finishes without raising. -/
def runPipeline (ps : List InPlacemark) (mn mx : ℚ) (cm : ℚ → ℚ × ℚ × ℚ)
    (alpha : ℚ) : Except String (List OutPlacemark) :=
  match processPlacemarks ps mn mx cm alpha with
  | Except.error e => Except.error e
  | Except.ok rows => create_kml_from_dataframe rows

/-! ## main: argument validation and control flow -/

/-- The parsed command-line arguments that reach the core (the input path is
abstracted by `fileExists` / `suffixLower` below). -/
structure Args where
  minVal : ℚ
  maxVal : ℚ
  cmapName : String
  alpha : ℚ
deriving DecidableEq

/-- Where `main` stops before the `try` block. -/
inductive MainStep where
  | missingFile
  | badExtension
  | proceedToProcessing
deriving DecidableEq

/-- The pre-processing validation in `main`: the file-existence check, then
the extension check; nothing else is validated before the input file is read
(in particular the bounds and the colormap name are not inspected). -/
def mainFlow (a : Args) (fileExists : Bool) (suffixLower : String) : MainStep :=
  if !fileExists then MainStep.missingFile
  else if suffixLower ≠ ".kml" ∧ suffixLower ≠ ".kmz" then MainStep.badExtension
  else MainStep.proceedToProcessing

/-- Whether an invocation of `main` writes an output file: validation must
proceed and the pipeline must finish without raising (any exception is
caught and printed, and nothing is written). -/
def mainWritesOutput (ps : List InPlacemark) (a : Args) (cm : ℚ → ℚ × ℚ × ℚ)
    (fileExists : Bool) (suffixLower : String) : Bool :=
  match mainFlow a fileExists suffixLower with
  | MainStep.proceedToProcessing => isOkE (runPipeline ps a.minVal a.maxVal cm a.alpha)
  | _ => false

/-! ## Concrete gradient data -/

/-- Gradient model for concrete evaluations.  The colormap registry lives in
matplotlib, outside this repository; the spec describes a gradient as a pure
map from [0,1] to RGB channel fractions in [0,1].  The matplotlib `rainbow`
gradient evaluates at 0 to channel fractions `(1/2, 0, 1)` (red
`abs(2 x - 1/2)`, green `sin(pi x)`, blue `cos(pi x / 2)` at `x = 0`, and
entry 0 of the 256-entry lookup table holds exactly these values).  This
model returns that endpoint value everywhere; theorems only evaluate it. -/
def rainbowAt0 : ℚ → ℚ × ℚ × ℚ := fun _ => (1/2, 0, 1)

/-- The color formula as the spec words it, for comparison with `get_color`:
each channel computed as `round(channel_fraction * 255)` (Python `round`,
half to even) instead of the truncating `int(...)` of the source. -/
def spec_color_round (cm : ℚ → ℚ × ℚ × ℚ) (value : ℚ) (alpha : ℚ) : String :=
  let rgb := cm value
  asciiUpper (pyHex02Z (rndHalfEven (alpha * 255)) ++ pyHex02Z (rndHalfEven (rgb.2.2 * 255))
    ++ pyHex02Z (rndHalfEven (rgb.2.1 * 255)) ++ pyHex02Z (rndHalfEven (rgb.1 * 255)))

/-! ## Concrete sample data -/

/-- The description string of the worked spec example. -/
def descSample : String :=
  "<b>2024-01-01 12:00:00</b></br>0.15 µSv/h</br>25.3 cps</br>Accuracy: ±5 m</br>"

/-- A well-formed input placemark. -/
def goodPm : InPlacemark :=
  ⟨some "p1", some "#style", some "12.5,45.6,100", some descSample⟩

/-- An input placemark whose description does not match the pattern. -/
def badPm : InPlacemark :=
  ⟨some "p2", some "#style", some "1.0,2.0,0", some "unparseable"⟩

/-- A well-formed input placemark with no id attribute. -/
def noIdPm : InPlacemark :=
  ⟨none, some "#style", some "12.5,45.6,100", some descSample⟩

/-- An input placemark with no styleUrl child. -/
def noStylePm : InPlacemark :=
  ⟨some "q", none, some "1,2,0", some descSample⟩

/-- The processed row of `goodPm` at min 0.05, max 0.5, gradient
`rainbowAt0`, alpha 0.8. -/
def rowSample : Row :=
  { id? := some "p1", style_url := "#style", coordinates := "12.5,45.6,100",
    description := descSample, datetime? := some "2024-01-01 12:00:00",
    usvh? := some (3/20), cps? := some (253/10), accuracy? := some "5",
    usvh_normalized? := some (2/9), color := "CCFF007F" }

/-- The output placemark written for `rowSample`. -/
def outSample : OutPlacemark :=
  { id := "p1", color := "CCFF007F", scale := "0.8", iconHref := iconUrl,
    dataEntries := [("Time", "2024-01-01 12:00:00"), ("µSv/h", "0.15"),
      ("cps", "25.3"), ("Accuracy (m)", "5")],
    coordinates := "12.5,45.6,0" }

/-- The sixteen uppercase hexadecimal digit characters. -/
def hexUpperChars : List Char := "0123456789ABCDEF".data

/-! ## Helper lemmas -/

theorem exMap_ok_length {α β : Type} (f : α → Except String β) :
    ∀ (l : List α) (l' : List β), exMap f l = Except.ok l' → l'.length = l.length := by
  intro l
  induction l with
  | nil =>
    intro l' h
    simp only [exMap] at h
    cases h
    rfl
  | cons a as ih =>
    intro l' h
    simp only [exMap] at h
    cases hfa : f a with
    | error e => rw [hfa] at h; simp at h
    | ok b =>
      rw [hfa] at h
      cases hrest : exMap f as with
      | error e => rw [hrest] at h; simp at h
      | ok bs =>
        rw [hrest] at h
        simp only [Except.ok.injEq] at h
        subst h
        simp [ih bs hrest]

theorem exMap_ok_get {α β : Type} (f : α → Except String β) :
    ∀ (l : List α) (l' : List β), exMap f l = Except.ok l' →
      ∀ (i : ℕ) (hi : i < l.length) (hi' : i < l'.length),
        f (l.get ⟨i, hi⟩) = Except.ok (l'.get ⟨i, hi'⟩) := by
  intro l
  induction l with
  | nil =>
    intro l' h i hi hi'
    exact absurd hi (Nat.not_lt_zero i)
  | cons a as ih =>
    intro l' h i hi hi'
    simp only [exMap] at h
    cases hfa : f a with
    | error e => rw [hfa] at h; simp at h
    | ok b =>
      rw [hfa] at h
      cases hrest : exMap f as with
      | error e => rw [hrest] at h; simp at h
      | ok bs =>
        rw [hrest] at h
        simp only [Except.ok.injEq] at h
        subst h
        cases i with
        | zero => simpa using hfa
        | succ j =>
          exact ih bs hrest j (Nat.lt_of_succ_lt_succ hi) (Nat.lt_of_succ_lt_succ hi')

theorem exMap_error_of_mem {α β : Type} (f : α → Except String β) (a : α) (e : String) :
    ∀ (l : List α), a ∈ l → f a = Except.error e →
      ∃ e', exMap f l = Except.error e' := by
  intro l
  induction l with
  | nil => intro ha; exact absurd ha (List.not_mem_nil a)
  | cons b bs ih =>
    intro ha hfa
    cases hfb : f b with
    | error e'' => exact ⟨e'', by simp [exMap, hfb]⟩
    | ok c =>
      rcases List.mem_cons.mp ha with hab | hmem
      · subst hab; rw [hfa] at hfb; cases hfb
      · rcases ih hmem hfa with ⟨e', hrest⟩
        exact ⟨e', by simp [exMap, hfb, hrest]⟩

theorem buildRows_length (mn mx : ℚ) (cm : ℚ → ℚ × ℚ × ℚ) (alpha : ℚ) :
    ∀ (rs : List PlacemarkRec) (ps : List Parsed), ps.length = rs.length →
      (buildRows mn mx cm alpha rs ps).length = rs.length := by
  intro rs
  induction rs with
  | nil => intro ps _; cases ps <;> simp [buildRows]
  | cons r rs ih =>
    intro ps h
    cases ps with
    | nil => simp at h
    | cons pd ps =>
      simp only [List.length_cons, Nat.succ.injEq] at h
      simp [buildRows, ih ps h]

theorem buildRows_get_id (mn mx : ℚ) (cm : ℚ → ℚ × ℚ × ℚ) (alpha : ℚ) :
    ∀ (rs : List PlacemarkRec) (ps : List Parsed) (i : ℕ)
      (hi : i < (buildRows mn mx cm alpha rs ps).length) (hr : i < rs.length),
      ((buildRows mn mx cm alpha rs ps).get ⟨i, hi⟩).id? = (rs.get ⟨i, hr⟩).id? := by
  intro rs
  induction rs with
  | nil => intro ps i hi hr; exact absurd hr (Nat.not_lt_zero i)
  | cons r rs ih =>
    intro ps i hi hr
    cases ps with
    | nil => simp [buildRows] at hi
    | cons pd ps =>
      cases i with
      | zero => rfl
      | succ j =>
        exact ih ps j (by simpa [buildRows] using hi) (Nat.lt_of_succ_lt_succ hr)

theorem extractPlacemark_ok_id (p : InPlacemark) (r : PlacemarkRec)
    (h : extractPlacemark p = Except.ok r) : r.id? = p.id? := by
  unfold extractPlacemark at h
  cases hsu : p.styleUrl? with
  | none => rw [hsu] at h; cases h
  | some su =>
    rw [hsu] at h
    cases hco : p.pointCoordinates? with
    | none => rw [hco] at h; cases h
    | some co =>
      rw [hco] at h
      cases hde : p.description? with
      | none => rw [hde] at h; cases h
      | some de =>
        rw [hde] at h
        cases h
        rfl

theorem extractPlacemark_error_of_missing (p : InPlacemark)
    (h : p.styleUrl? = none ∨ p.description? = none) :
    ∃ e, extractPlacemark p = Except.error e := by
  unfold extractPlacemark
  cases hsu : p.styleUrl? with
  | none => exact ⟨_, rfl⟩
  | some su =>
    cases hco : p.pointCoordinates? with
    | none => exact ⟨_, rfl⟩
    | some co =>
      cases hde : p.description? with
      | none => exact ⟨_, rfl⟩
      | some de =>
        rcases h with h | h
        · rw [hsu] at h; cases h
        · rw [hde] at h; cases h

theorem writeRow_ok_id (r : Row) (o : OutPlacemark)
    (h : writeRow r = Except.ok o) : o.id = pyStrOpt r.id? := by
  unfold writeRow at h
  repeat' split at h
  all_goals first
    | exact Except.noConfusion h
    | (cases h; rfl)

/-- Evaluation of `writeRow` on a row whose derived fields are all present
and whose coordinate string has at least two numeric fields. -/
theorem writeRow_eq (r : Row) (t : String) (u c : ℚ) (acc : String) (n : ℤ)
    (f0 f1 : String) (rest : List String) (lon lat : ℚ)
    (hd : r.datetime? = some t) (hu : r.usvh? = some u) (hc : r.cps? = some c)
    (ha : r.accuracy? = some acc) (hn : pyIntOfString acc = Except.ok n)
    (hsplit : r.coordinates.split (fun ch => ch = ',') = f0 :: f1 :: rest)
    (hlon : pyFloatOfString f0 = Except.ok lon)
    (hlat : pyFloatOfString f1 = Except.ok lat) :
    writeRow r = Except.ok
      { id := pyStrOpt r.id?, color := r.color, scale := "0.8",
        iconHref := iconUrl,
        dataEntries := [("Time", t), ("µSv/h", fmtFix 2 u), ("cps", fmtFix 1 c),
          ("Accuracy (m)", toString n)],
        coordinates := pyReprFloat lon ++ "," ++ pyReprFloat lat ++ ",0" } := by
  simp only [writeRow, hd, hu, hc, ha, hn, hsplit, hlon, hlat]

theorem pyHex02Z_nonneg (n : ℤ) (h : 0 ≤ n) : pyHex02Z n = pyHex02 n.toNat := by
  simp [pyHex02Z, not_lt.mpr h]

theorem asciiUpper_append (s t : String) :
    asciiUpper (s ++ t) = asciiUpper s ++ asciiUpper t := by
  show String.mk ((s.data ++ t.data).map charUpper)
    = String.mk (s.data.map charUpper ++ t.data.map charUpper)
  rw [List.map_append]

theorem hexByte_shape :
    ∀ m : ℕ, m < 256 → (asciiUpper (pyHex02 m)).length = 2 ∧
      ∀ ch ∈ (asciiUpper (pyHex02 m)).data, ch ∈ hexUpperChars := by
  decide

theorem pyIntTrunc_byte (q : ℚ) (h0 : 0 ≤ q) (h1 : q ≤ 1) :
    0 ≤ pyIntTrunc (q * 255) ∧ (pyIntTrunc (q * 255)).toNat < 256 := by
  have hq0 : (0 : ℚ) ≤ q * 255 := by positivity
  have hnl : ¬ q * 255 < 0 := not_lt.mpr hq0
  unfold pyIntTrunc
  rw [if_neg hnl]
  have hfl0 : 0 ≤ Int.floor (q * 255) := Int.le_floor.mpr (by exact_mod_cast hq0)
  have hub : q * 255 ≤ 255 := by nlinarith
  have hfl255 : Int.floor (q * 255) ≤ 255 := by
    have h2 : Int.floor (q * 255) ≤ Int.floor ((255 : ℚ)) := Int.floor_mono hub
    simpa using h2
  refine ⟨hfl0, ?_⟩
  omega

/-! ## Claims -/

/-- C1: for every dose-rate value and bounds with min &lt; max, the normalized
value `min(max((x - min)/(max - min), 0), 1)` lies in [0,1]; normalizing the
minimum gives 0 and the maximum gives 1; values below the minimum clamp to 0
and values above the maximum clamp to 1. -/
theorem normalizeVal_clamps (x mn mx : ℚ) (h : mn < mx) :
    (0 ≤ normalizeVal x mn mx ∧ normalizeVal x mn mx ≤ 1)
    ∧ normalizeVal mn mn mx = 0
    ∧ normalizeVal mx mn mx = 1
    ∧ (x < mn → normalizeVal x mn mx = 0)
    ∧ (mx < x → normalizeVal x mn mx = 1) := by
  have hd : 0 < mx - mn := sub_pos.mpr h
  unfold normalizeVal
  refine ⟨⟨le_min (le_max_right _ _) zero_le_one, min_le_right _ _⟩, ?_, ?_, ?_, ?_⟩
  · simp
  · rw [div_self hd.ne']
    simp
  · intro hx
    have hneg : (x - mn) / (mx - mn) < 0 := div_neg_of_neg_of_pos (sub_neg.mpr hx) hd
    rw [max_eq_right hneg.le, min_eq_left zero_le_one]
  · intro hx
    have h1 : 1 ≤ (x - mn) / (mx - mn) := (one_le_div hd).mpr (by linarith)
    rw [max_eq_left (zero_le_one.trans h1), min_eq_right h1]

theorem normalizeVal_clamps_witness :
    0 ≤ normalizeVal (3/20) (1/20) (1/2) ∧ normalizeVal (3/20) (1/20) (1/2) ≤ 1 :=
  (normalizeVal_clamps (3/20) (1/20) (1/2) (by norm_num)).1

/-- C2 (amended): for channel fractions and alpha in [0,1], the color string
is the concatenation, in alpha-blue-green-red order, of the two-digit
zero-padded uppercase hexadecimal renderings of `int(channel * 255)`
(truncation toward zero, not rounding); it always has exactly 8 uppercase
hexadecimal characters, and it is a pure function of its inputs. -/
theorem get_color_bytes (cm : ℚ → ℚ × ℚ × ℚ) (v a r g b : ℚ)
    (hcm : cm v = (r, g, b)) (ha : 0 ≤ a ∧ a ≤ 1) (hr : 0 ≤ r ∧ r ≤ 1)
    (hg : 0 ≤ g ∧ g ≤ 1) (hb : 0 ≤ b ∧ b ≤ 1) :
    get_color cm v a
      = asciiUpper (pyHex02 (pyIntTrunc (a * 255)).toNat)
        ++ asciiUpper (pyHex02 (pyIntTrunc (b * 255)).toNat)
        ++ asciiUpper (pyHex02 (pyIntTrunc (g * 255)).toNat)
        ++ asciiUpper (pyHex02 (pyIntTrunc (r * 255)).toNat)
    ∧ (get_color cm v a).length = 8
    ∧ ∀ ch ∈ (get_color cm v a).data, ch ∈ hexUpperChars := by
  have hba := pyIntTrunc_byte a ha.1 ha.2
  have hbb := pyIntTrunc_byte b hb.1 hb.2
  have hbg := pyIntTrunc_byte g hg.1 hg.2
  have hbr := pyIntTrunc_byte r hr.1 hr.2
  have heq : get_color cm v a
      = asciiUpper (pyHex02 (pyIntTrunc (a * 255)).toNat)
        ++ asciiUpper (pyHex02 (pyIntTrunc (b * 255)).toNat)
        ++ asciiUpper (pyHex02 (pyIntTrunc (g * 255)).toNat)
        ++ asciiUpper (pyHex02 (pyIntTrunc (r * 255)).toNat) := by
    simp only [get_color, hcm]
    rw [pyHex02Z_nonneg _ hba.1, pyHex02Z_nonneg _ hbb.1, pyHex02Z_nonneg _ hbg.1,
      pyHex02Z_nonneg _ hbr.1]
    rw [asciiUpper_append, asciiUpper_append, asciiUpper_append]
  have sha := hexByte_shape _ hba.2
  have shb := hexByte_shape _ hbb.2
  have shg := hexByte_shape _ hbg.2
  have shr := hexByte_shape _ hbr.2
  refine ⟨heq, ?_, ?_⟩
  · rw [heq]
    simp [String.length_append, sha.1, shb.1, shg.1, shr.1]
  · rw [heq]
    intro ch hch
    have hdata : (asciiUpper (pyHex02 (pyIntTrunc (a * 255)).toNat)
        ++ asciiUpper (pyHex02 (pyIntTrunc (b * 255)).toNat)
        ++ asciiUpper (pyHex02 (pyIntTrunc (g * 255)).toNat)
        ++ asciiUpper (pyHex02 (pyIntTrunc (r * 255)).toNat)).data
      = (asciiUpper (pyHex02 (pyIntTrunc (a * 255)).toNat)).data
        ++ (asciiUpper (pyHex02 (pyIntTrunc (b * 255)).toNat)).data
        ++ (asciiUpper (pyHex02 (pyIntTrunc (g * 255)).toNat)).data
        ++ (asciiUpper (pyHex02 (pyIntTrunc (r * 255)).toNat)).data := rfl
    rw [hdata] at hch
    rcases List.mem_append.mp hch with hch | hch
    · rcases List.mem_append.mp hch with hch | hch
      · rcases List.mem_append.mp hch with hch | hch
        · exact sha.2 ch hch
        · exact shb.2 ch hch
      · exact shg.2 ch hch
    · exact shr.2 ch hch

theorem get_color_bytes_witness : (get_color rainbowAt0 0 (4/5)).length = 8 :=
  (get_color_bytes rainbowAt0 0 (4/5) (1/2) 0 1 rfl
    (by norm_num) (by norm_num) (by norm_num) (by norm_num)).2.1

/-- C2 (counterexample): the source truncates each channel with `int(...)`;
at the rainbow gradient endpoint the red channel fraction is 1/2, whose
byte is 127 under truncation but 128 under the rounding the claim states,
so the produced string differs from the round-based one. -/
theorem get_color_trunc_ne_round :
    get_color rainbowAt0 0 (4/5) = "CCFF007F"
    ∧ spec_color_round rainbowAt0 0 (4/5) = "CCFF0080"
    ∧ get_color rainbowAt0 0 (4/5) ≠ spec_color_round rainbowAt0 0 (4/5) := by
  with_unfolding_all decide

/-- C4: `main` performs no bounds validation at all: with an existing input
file of `.kml` extension, an invocation whose `--min` equals `--max` passes
every check made before the file is read and proceeds to processing, for any
colormap name and alpha; no ConfigError-like rejection exists. -/
theorem equal_bounds_not_rejected (mn : ℚ) (cn : String) (al : ℚ) :
    mainFlow ⟨mn, mn, cn, al⟩ true ".kml" = MainStep.proceedToProcessing := rfl

/-- C6: parsing the worked example description yields the timestamp
`2024-01-01 12:00:00`, dose rate 0.15, count rate 25.3, and the accuracy
capture `"5"`, whose integer value (as the writer later computes it) is the
non-negative integer 5. -/
theorem parse_description_example :
    parse_description descSample
      = Except.ok ⟨some "2024-01-01 12:00:00", some (3/20), some (253/10), some "5"⟩
    ∧ pyIntOfString "5" = Except.ok 5 := by
  with_unfolding_all decide

/-- C7: on any description string in which the fixed pattern does not occur,
`parse_description` returns with all four derived fields absent and raises
no error. -/
theorem parse_description_no_match (desc : String) (h : searchDesc desc = none) :
    parse_description desc = Except.ok ⟨none, none, none, none⟩ := by
  unfold parse_description
  rw [h]

theorem parse_description_no_match_witness :
    parse_description "hello" = Except.ok ⟨none, none, none, none⟩ :=
  parse_description_no_match "hello" (by with_unfolding_all decide)

/-- C3: on an input holding a record whose description does not parse next
to one that does, the normalization and color steps complete without raising
(the absent dose rate propagates as a NaN normalized value and the row still
receives a color); the run then aborts inside the writer with a TypeError on
the absent timestamp, so no output file is written — but not during
normalization and not as a DataError. -/
theorem missing_dose_rate_not_a_normalization_error :
    (processPlacemarks [goodPm, badPm] (1/20) (1/2) rainbowAt0 (4/5)).map
        (fun rows => rows.map Row.usvh_normalized?)
      = Except.ok [some (2/9), none]
    ∧ runPipeline [goodPm, badPm] (1/20) (1/2) rainbowAt0 (4/5)
      = Except.error "TypeError: KML.value of NoneType" := by
  with_unfolding_all decide

/-- C5 (amended): whenever the pipeline finishes, it emits exactly one
output placemark per input placemark, in the same order; the i-th output id
attribute is `str` of the i-th input id, which equals the input id whenever
the input placemark has one (an absent input id becomes the literal string
"None"). -/
theorem output_placemarks_match_input (ps : List InPlacemark) (mn mx : ℚ)
    (cm : ℚ → ℚ × ℚ × ℚ) (alpha : ℚ) (outs : List OutPlacemark)
    (h : runPipeline ps mn mx cm alpha = Except.ok outs) :
    outs.length = ps.length
    ∧ ∀ (i : ℕ) (hi : i < outs.length) (hp : i < ps.length),
        (outs.get ⟨i, hi⟩).id = pyStrOpt ((ps.get ⟨i, hp⟩).id?)
        ∧ ∀ s, (ps.get ⟨i, hp⟩).id? = some s → (outs.get ⟨i, hi⟩).id = s := by
  unfold runPipeline at h
  cases hproc : processPlacemarks ps mn mx cm alpha with
  | error e => rw [hproc] at h; cases h
  | ok rows =>
    simp only [hproc] at h
    unfold processPlacemarks at hproc
    cases hex : exMap extractPlacemark ps with
    | error e => rw [hex] at hproc; cases hproc
    | ok recs =>
      simp only [hex] at hproc
      cases hpar : exMap (fun r => parse_description r.description) recs with
      | error e => rw [hpar] at hproc; cases hproc
      | ok parsed =>
        simp only [hpar, Except.ok.injEq] at hproc
        subst hproc
        unfold create_kml_from_dataframe at h
        have hlrec : recs.length = ps.length := exMap_ok_length _ ps recs hex
        have hlpar : parsed.length = recs.length := exMap_ok_length _ recs parsed hpar
        have hlrows : (buildRows mn mx cm alpha recs parsed).length = recs.length :=
          buildRows_length mn mx cm alpha recs parsed hlpar
        have hlouts : outs.length = (buildRows mn mx cm alpha recs parsed).length :=
          exMap_ok_length _ _ outs h
        refine ⟨by omega, ?_⟩
        intro i hi hp
        have hirows : i < (buildRows mn mx cm alpha recs parsed).length := by omega
        have hirecs : i < recs.length := by omega
        have hw := exMap_ok_get _ _ _ h i hirows hi
        have hid := writeRow_ok_id _ _ hw
        have hbid := buildRows_get_id mn mx cm alpha recs parsed i hirows hirecs
        have hext := exMap_ok_get _ _ _ hex i hp hirecs
        have heid := extractPlacemark_ok_id _ _ hext
        refine ⟨by rw [hid, hbid, heid], ?_⟩
        intro s hs
        rw [hid, hbid, heid, hs]
        rfl

theorem output_placemarks_match_input_witness :
    outSample.id = pyStrOpt goodPm.id? := by
  have hrun : runPipeline [goodPm] (1/20) (1/2) rainbowAt0 (4/5)
      = Except.ok [outSample] := by
    with_unfolding_all decide
  exact ((output_placemarks_match_input [goodPm] (1/20) (1/2) rainbowAt0 (4/5)
    [outSample] hrun).2 0 (by decide) (by decide)).1

/-- C5 (counterexample): a valid input placemark carrying no id attribute
still produces an output placemark, but its id attribute is the literal
string "None" (Python `str(None)`), not the absent input id. -/
theorem absent_id_written_as_None_string :
    (runPipeline [noIdPm] (1/20) (1/2) rainbowAt0 (4/5)).map
        (fun outs => outs.map OutPlacemark.id)
      = Except.ok ["None"]
    ∧ noIdPm.id? = none := by
  with_unfolding_all decide

/-- C8: the coordinates of every written placemark are
`"{longitude},{latitude},0"` where longitude and latitude are `float` of the
first two comma-separated fields of the raw coordinate string and any
further fields are ignored; in particular the altitude term is always 0. -/
theorem written_coordinates (r : Row) (t : String) (u c : ℚ) (acc : String) (n : ℤ)
    (f0 f1 : String) (rest : List String) (lon lat : ℚ)
    (hd : r.datetime? = some t) (hu : r.usvh? = some u) (hc : r.cps? = some c)
    (ha : r.accuracy? = some acc) (hn : pyIntOfString acc = Except.ok n)
    (hsplit : r.coordinates.split (fun ch => ch = ',') = f0 :: f1 :: rest)
    (hlon : pyFloatOfString f0 = Except.ok lon)
    (hlat : pyFloatOfString f1 = Except.ok lat) :
    (writeRow r).map OutPlacemark.coordinates
      = Except.ok (pyReprFloat lon ++ "," ++ pyReprFloat lat ++ ",0") := by
  rw [writeRow_eq r t u c acc n f0 f1 rest lon lat hd hu hc ha hn hsplit hlon hlat]
  rfl

theorem written_coordinates_witness :
    (writeRow rowSample).map OutPlacemark.coordinates = Except.ok "12.5,45.6,0" := by
  have h := written_coordinates rowSample "2024-01-01 12:00:00" (3/20) (253/10) "5" 5
    "12.5" "45.6" ["100"] (25/2) (228/5) rfl rfl rfl rfl
    (by with_unfolding_all decide) (by with_unfolding_all decide)
    (by with_unfolding_all decide) (by with_unfolding_all decide)
  exact h.trans (by with_unfolding_all decide)

/-- C9: the extended data of every written placemark is exactly the four
entries, in this order and naming: "Time" with the timestamp, "µSv/h" with
the dose rate at 2 decimal places, "cps" with the count rate at 1 decimal
place, and "Accuracy (m)" with the accuracy as an integer string; none is
ever omitted and each carries a string value. -/
theorem written_extended_data (r : Row) (t : String) (u c : ℚ) (acc : String) (n : ℤ)
    (f0 f1 : String) (rest : List String) (lon lat : ℚ)
    (hd : r.datetime? = some t) (hu : r.usvh? = some u) (hc : r.cps? = some c)
    (ha : r.accuracy? = some acc) (hn : pyIntOfString acc = Except.ok n)
    (hsplit : r.coordinates.split (fun ch => ch = ',') = f0 :: f1 :: rest)
    (hlon : pyFloatOfString f0 = Except.ok lon)
    (hlat : pyFloatOfString f1 = Except.ok lat) :
    (writeRow r).map OutPlacemark.dataEntries
      = Except.ok [("Time", t), ("µSv/h", fmtFix 2 u), ("cps", fmtFix 1 c),
          ("Accuracy (m)", toString n)] := by
  rw [writeRow_eq r t u c acc n f0 f1 rest lon lat hd hu hc ha hn hsplit hlon hlat]
  rfl

theorem written_extended_data_witness :
    (writeRow rowSample).map OutPlacemark.dataEntries
      = Except.ok [("Time", "2024-01-01 12:00:00"), ("µSv/h", "0.15"),
          ("cps", "25.3"), ("Accuracy (m)", "5")] := by
  have h := written_extended_data rowSample "2024-01-01 12:00:00" (3/20) (253/10) "5" 5
    "12.5" "45.6" ["100"] (25/2) (228/5) rfl rfl rfl rfl
    (by with_unfolding_all decide) (by with_unfolding_all decide)
    (by with_unfolding_all decide) (by with_unfolding_all decide)
  exact h.trans (by with_unfolding_all decide)

/-- C10: an input document containing a placemark without a styleUrl child
or without a description child makes extraction raise an AttributeError, so
the whole run aborts and main writes no output file — missing
Point/coordinates is not the only aborting structural condition. -/
theorem missing_child_aborts (ps : List InPlacemark) (p : InPlacemark) (a : Args)
    (cm : ℚ → ℚ × ℚ × ℚ) (hmem : p ∈ ps)
    (hmiss : p.styleUrl? = none ∨ p.description? = none) :
    isOkE (runPipeline ps a.minVal a.maxVal cm a.alpha) = false
    ∧ mainWritesOutput ps a cm true ".kml" = false := by
  rcases extractPlacemark_error_of_missing p hmiss with ⟨e, he⟩
  rcases exMap_error_of_mem extractPlacemark p e ps hmem he with ⟨e', hex⟩
  have hrun : runPipeline ps a.minVal a.maxVal cm a.alpha = Except.error e' := by
    unfold runPipeline processPlacemarks
    rw [hex]
  refine ⟨by rw [hrun]; rfl, ?_⟩
  unfold mainWritesOutput
  have hflow : mainFlow a true ".kml" = MainStep.proceedToProcessing := rfl
  rw [hflow, hrun]
  rfl

theorem missing_child_aborts_witness :
    isOkE (runPipeline [noStylePm] (1/20) (1/2) rainbowAt0 (4/5)) = false :=
  (missing_child_aborts [noStylePm] noStylePm ⟨1/20, 1/2, "rainbow", 4/5⟩ rainbowAt0
    (List.mem_singleton.mpr rfl) (Or.inl rfl)).1

end RadiaCode
